import Mathlib

/-!
Verification of the ComfyUI job-client script (`compyuiAPI.py`).

The script drives a remote generative-media server over HTTP: it patches one
field of a workflow graph (`update_node_input`), submits the graph
(`run_workflow`), polls a queue endpoint until the job disappears
(`wait_for_completion`), looks the job up in the history collection
(`get_history`) and downloads the produced image files (`download_images`).

We shallowly embed the Python code over a JSON-like value type `JVal`.
Python dictionaries become association lists (`List (String × JVal)`); the
dynamic behaviour of the Python operators that the code uses (`in`,
subscription, truthiness, `str(...)`, iteration) is embedded by small total
functions that return `Option`/`Except` where Python would raise.  HTTP
responses are modelled as a status code paired with an already-parsed JSON
body, and the network itself as an explicit argument (a list of successive
poll responses, or a function from filename to response).

One claim concerns aliasing (the shallow `dict.copy()` performed by the main
script before mutating the copy), so for that claim the same
`update_node_input` algorithm is additionally embedded over an explicit
store of node records (`update_node_input_ref`), where the top-level graph
maps node ids to references and the shallow copy duplicates only the
top-level mapping.
-/

namespace ComfyUIAPI

/-- JSON values as delivered by `response.json()` and stored in workflow
files.  JSON numbers are modelled as integers (no claim touches numeric
values). -/
inductive JVal where
| null : JVal
| bool : Bool → JVal
| num : Int → JVal
| str : String → JVal
| arr : List JVal → JVal
| obj : List (String × JVal) → JVal

mutual

/-- Decidable equality on `JVal` (the derive handler does not support the
nesting through `List`). -/
def JVal.decEq : (a b : JVal) → Decidable (a = b)
| .null, .null => isTrue rfl
| .bool a, .bool b =>
  if h : a = b then isTrue (h ▸ rfl)
  else isFalse fun hh => h (JVal.bool.inj hh)
| .num a, .num b =>
  if h : a = b then isTrue (h ▸ rfl)
  else isFalse fun hh => h (JVal.num.inj hh)
| .str a, .str b =>
  if h : a = b then isTrue (h ▸ rfl)
  else isFalse fun hh => h (JVal.str.inj hh)
| .arr xs, .arr ys =>
  match JVal.decEqList xs ys with
  | isTrue h => isTrue (h ▸ rfl)
  | isFalse h => isFalse fun hh => h (JVal.arr.inj hh)
| .obj xs, .obj ys =>
  match JVal.decEqObj xs ys with
  | isTrue h => isTrue (h ▸ rfl)
  | isFalse h => isFalse fun hh => h (JVal.obj.inj hh)
| .null, .bool _ => isFalse fun h => JVal.noConfusion h
| .null, .num _ => isFalse fun h => JVal.noConfusion h
| .null, .str _ => isFalse fun h => JVal.noConfusion h
| .null, .arr _ => isFalse fun h => JVal.noConfusion h
| .null, .obj _ => isFalse fun h => JVal.noConfusion h
| .bool _, .null => isFalse fun h => JVal.noConfusion h
| .bool _, .num _ => isFalse fun h => JVal.noConfusion h
| .bool _, .str _ => isFalse fun h => JVal.noConfusion h
| .bool _, .arr _ => isFalse fun h => JVal.noConfusion h
| .bool _, .obj _ => isFalse fun h => JVal.noConfusion h
| .num _, .null => isFalse fun h => JVal.noConfusion h
| .num _, .bool _ => isFalse fun h => JVal.noConfusion h
| .num _, .str _ => isFalse fun h => JVal.noConfusion h
| .num _, .arr _ => isFalse fun h => JVal.noConfusion h
| .num _, .obj _ => isFalse fun h => JVal.noConfusion h
| .str _, .null => isFalse fun h => JVal.noConfusion h
| .str _, .bool _ => isFalse fun h => JVal.noConfusion h
| .str _, .num _ => isFalse fun h => JVal.noConfusion h
| .str _, .arr _ => isFalse fun h => JVal.noConfusion h
| .str _, .obj _ => isFalse fun h => JVal.noConfusion h
| .arr _, .null => isFalse fun h => JVal.noConfusion h
| .arr _, .bool _ => isFalse fun h => JVal.noConfusion h
| .arr _, .num _ => isFalse fun h => JVal.noConfusion h
| .arr _, .str _ => isFalse fun h => JVal.noConfusion h
| .arr _, .obj _ => isFalse fun h => JVal.noConfusion h
| .obj _, .null => isFalse fun h => JVal.noConfusion h
| .obj _, .bool _ => isFalse fun h => JVal.noConfusion h
| .obj _, .num _ => isFalse fun h => JVal.noConfusion h
| .obj _, .str _ => isFalse fun h => JVal.noConfusion h
| .obj _, .arr _ => isFalse fun h => JVal.noConfusion h

/-- Decidable equality on lists of `JVal`. -/
def JVal.decEqList : (xs ys : List JVal) → Decidable (xs = ys)
| [], [] => isTrue rfl
| [], _ :: _ => isFalse fun h => List.noConfusion h
| _ :: _, [] => isFalse fun h => List.noConfusion h
| x :: xs, y :: ys =>
  match JVal.decEq x y with
  | isFalse h => isFalse fun hh => h (List.cons.inj hh).1
  | isTrue h1 =>
    match JVal.decEqList xs ys with
    | isTrue h2 => isTrue (h1 ▸ h2 ▸ rfl)
    | isFalse h => isFalse fun hh => h (List.cons.inj hh).2

/-- Decidable equality on association lists of `JVal`. -/
def JVal.decEqObj : (xs ys : List (String × JVal)) → Decidable (xs = ys)
| [], [] => isTrue rfl
| [], _ :: _ => isFalse fun h => List.noConfusion h
| _ :: _, [] => isFalse fun h => List.noConfusion h
| (k, v) :: xs, (l, w) :: ys =>
  if h1 : k = l then
    match JVal.decEq v w with
    | isFalse h => isFalse fun hh => h (congrArg Prod.snd (List.cons.inj hh).1)
    | isTrue h2 =>
      match JVal.decEqObj xs ys with
      | isTrue h3 => isTrue (h1 ▸ h2 ▸ h3 ▸ rfl)
      | isFalse h => isFalse fun hh => h (List.cons.inj hh).2
  else isFalse fun hh => h1 (congrArg Prod.fst (List.cons.inj hh).1)

end

instance : DecidableEq JVal := JVal.decEq

instance {ε α : Type} [DecidableEq ε] [DecidableEq α] : DecidableEq (Except ε α)
| .ok a, .ok b =>
  if h : a = b then isTrue (h ▸ rfl)
  else isFalse fun hh => h (Except.ok.inj hh)
| .error a, .error b =>
  if h : a = b then isTrue (h ▸ rfl)
  else isFalse fun hh => h (Except.error.inj hh)
| .ok _, .error _ => isFalse fun h => Except.noConfusion h
| .error _, .ok _ => isFalse fun h => Except.noConfusion h

namespace JVal

/-- Python truthiness (`if x:`) on JSON values: empty strings, zero, `False`,
`None`, empty lists and empty dicts are falsy. -/
def truthy : JVal → Bool
| .null => false
| .bool b => b
| .num n => decide (n ≠ 0)
| .str s => !s.isEmpty
| .arr xs => !xs.isEmpty
| .obj kvs => !kvs.isEmpty

end JVal

/-- Test `leadsWith n h`: the character list `n` starts the character list `h`. -/
def leadsWith : List Char → List Char → Bool
| [], _ => true
| _ :: _, [] => false
| a :: as, b :: bs => a = b && leadsWith as bs

/-- Test `occursIn n h`: the character list `n` occurs contiguously in `h`
(Python `in` on strings). -/
def occursIn (n : List Char) : List Char → Bool
| [] => leadsWith n []
| h :: t => leadsWith n (h :: t) || occursIn n t

/-- The Python membership test `key in v` for a string `key`.  Dicts test key
membership, lists test element membership, strings test substring
containment; on any other value Python raises `TypeError`, modelled as
`none`. -/
def pyIn (key : String) : JVal → Option Bool
| .obj kvs => some (kvs.any fun kv => kv.1 = key)
| .arr xs => some (xs.any fun x => decide (x = JVal.str key))
| .str s => some (occursIn key.toList s.toList)
| _ => none

/-- Dictionary lookup `d[k]` / `d.get(k)` on an association list: the value
at the first matching key. -/
def dget {κ α : Type} [DecidableEq κ] (k : κ) : List (κ × α) → Option α
| [] => none
| kv :: rest => if kv.1 = k then some kv.2 else dget k rest

/-- Dictionary assignment `d[k] = v` on an association list: replaces the
value at the first matching key, preserving insertion order, and appends a
new entry when the key is absent (Python dict semantics). -/
def dict_set {κ α : Type} [DecidableEq κ] (l : List (κ × α)) (k : κ) (v : α) : List (κ × α) :=
match l with
| [] => [(k, v)]
| kv :: rest => if kv.1 = k then (k, v) :: rest else kv :: dict_set rest k v

/-- Embedding of `update_node_input` (compyuiAPI.py lines 41-50) over graph
values.  A workflow is a dict from node id to node record.  The code does:
`if node_id in workflow: if input_name in workflow[node_id]["inputs"]:
workflow[node_id]["inputs"][input_name] = new_value` (warning prints
otherwise), then returns the workflow.  `Except.error ()` marks the points
where the Python expression raises: subscripting a non-dict node record,
a missing `"inputs"` key (`KeyError`), `in` applied to a non-container
inputs value (`TypeError`), and item assignment on a non-dict inputs value
(`TypeError`). -/
def update_node_input (wf : List (String × JVal)) (node_id input_name : String)
    (new_value : JVal) : Except Unit (List (String × JVal)) :=
match dget node_id wf with
| none => .ok wf
| some nodeRec =>
  match nodeRec with
  | .obj fields =>
    match dget "inputs" fields with
    | none => .error ()
    | some inputsVal =>
      match pyIn input_name inputsVal with
      | none => .error ()
      | some false => .ok wf
      | some true =>
        match inputsVal with
        | .obj ivs =>
          .ok (dict_set wf node_id
            (.obj (dict_set fields "inputs" (.obj (dict_set ivs input_name new_value)))))
        | _ => .error ()
  | _ => .error ()

mutual

/-- Python `repr` on JSON values (used by `str(...)` on non-string values). -/
def pyRepr : JVal → String
| .null => "None"
| .bool b => if b then "True" else "False"
| .num n => toString n
| .str s => "'" ++ s ++ "'"
| .arr xs => "[" ++ pyReprSeq xs ++ "]"
| .obj kvs => "\x7b" ++ pyReprEntries kvs ++ "\x7d"

/-- Comma-separated `repr`s of the elements of a list. -/
def pyReprSeq : List JVal → String
| [] => ""
| [x] => pyRepr x
| x :: y :: t => pyRepr x ++ ", " ++ pyReprSeq (y :: t)

/-- Comma-separated `repr`s of the entries of a dict. -/
def pyReprEntries : List (String × JVal) → String
| [] => ""
| [(k, v)] => "'" ++ k ++ "': " ++ pyRepr v
| (k, v) :: e :: t => "'" ++ k ++ "': " ++ pyRepr v ++ ", " ++ pyReprEntries (e :: t)

end

/-- Python `str(...)` on JSON values: strings unchanged, everything else via
`repr`. -/
def pyStr : JVal → String
| .str s => s
| v => pyRepr v

/-- Python subscription `v[key]` with a string key: only dicts support it
(`none` models the `KeyError`/`TypeError` raise on every other shape,
including a missing key). -/
def getItem (v : JVal) (key : String) : Option JVal :=
match v with
| .obj kvs => dget key kvs
| _ => none

/-- Outcome of `run_workflow` (compyuiAPI.py lines 52-90).  `submitError` is
the raise on a status other than 200 (carrying status and body),
`missingId` the raise when no non-empty prompt id could be extracted,
`typeErr` an uncaught dynamic-type error, and `ok` the returned id. -/
inductive SubmitOutcome where
| submitError (status : Nat) (body : JVal) : SubmitOutcome
| missingId (body : JVal) : SubmitOutcome
| typeErr : SubmitOutcome
| ok (id : JVal) : SubmitOutcome
deriving DecidableEq

/-- The prompt-id extraction of `run_workflow` (lines 78-90): start from
`prompt_id = ""`; take `result["prompt_id"]` if that key is present, else
`result["id"]` if present, else `str(result[0])` if the body is a non-empty
list; finally raise when the chosen value is falsy. -/
def extract_prompt_id (result : JVal) : SubmitOutcome :=
match pyIn "prompt_id" result with
| none => .typeErr
| some true =>
  match getItem result "prompt_id" with
  | none => .typeErr
  | some v => if v.truthy then .ok v else .missingId result
| some false =>
  match pyIn "id" result with
  | none => .typeErr
  | some true =>
    match getItem result "id" with
    | none => .typeErr
    | some v => if v.truthy then .ok v else .missingId result
  | some false =>
    match result with
    | .arr (x :: _) =>
      if (JVal.str (pyStr x)).truthy then .ok (.str (pyStr x)) else .missingId result
    | _ => .missingId result

/-- Embedding of `run_workflow` (lines 52-90) given the POST response,
modelled as a status code and a parsed JSON body: raise on any status other
than 200, otherwise extract the prompt id from the body. -/
def run_workflow (status : Nat) (body : JVal) : SubmitOutcome :=
if status ≠ 200 then .submitError status body else extract_prompt_id body

/-- One response of the GET `/queue` endpoint: status code plus parsed JSON
body. -/
structure PollResp where
status : Nat
body : JVal

/-- One entry of a queue list (lines 124-128 / 132-136): a dict contributes
its `"prompt_id"` value, a non-empty list its first element; anything else
is skipped. -/
def parse_queue_item (item : JVal) : Option JVal :=
match item with
| .obj kvs => dget "prompt_id" kvs
| .arr (x :: _) => some x
| _ => none

/-- The queue-id list extracted for `key` (`"queue_running"` or
`"queue_pending"`, lines 122-136): empty when the key is absent or its value
is not a list, else the parsed entries; `Except.error` when the membership
test or the subscription raises (non-dict body). -/
def parse_queue_ids (data : JVal) (key : String) : Except Unit (List JVal) :=
match pyIn key data with
| none => .error ()
| some false => .ok []
| some true =>
  match getItem data key with
  | none => .error ()
  | some (.arr items) => .ok (items.filterMap parse_queue_item)
  | some _ => .ok []

/-- The completion test of one poll (lines 142-145): the prompt id is in
neither parsed list and the running list is empty. -/
def queue_done (pid : String) (data : JVal) : Except Unit Bool :=
match parse_queue_ids data "queue_running" with
| .error e => .error e
| .ok running =>
  match parse_queue_ids data "queue_pending" with
  | .error e => .error e
  | .ok pending =>
    .ok (!(running.any fun x => decide (x = JVal.str pid)) &&
         !(pending.any fun x => decide (x = JVal.str pid)) &&
         running.isEmpty)

/-- Embedding of the polling loop of `wait_for_completion` (lines 103-148)
against a finite script of successive `/queue` responses.  A response with
status other than 200 is logged and retried after the sleep (lines
107-110).  Returns `some k` when the loop returns `True` on the `k`-th poll,
`none` when the script is exhausted with the loop still waiting (the real
loop would keep polling forever), and `Except.error` when a body makes the
parsing raise. -/
def wait_for_completion (pid : String) : List PollResp → Except Unit (Option Nat)
| [] => .ok none
| r :: rest =>
  if r.status ≠ 200 then
    match wait_for_completion pid rest with
    | .error e => .error e
    | .ok res => .ok (res.map (· + 1))
  else
    match queue_done pid r.body with
    | .error e => .error e
    | .ok true => .ok (some 1)
    | .ok false =>
      match wait_for_completion pid rest with
      | .error e => .error e
      | .ok res => .ok (res.map (· + 1))

/-- Embedding of `get_history` (lines 150-171) given the GET `/history`
response: raise on a status other than 200, else look the prompt id up in
the returned collection and fall back to the empty dict when absent. -/
def get_history (status : Nat) (history : JVal) (pid : String) : Except Unit JVal :=
if status ≠ 200 then .error ()
else
  match pyIn pid history with
  | none => .error ()
  | some true =>
    match getItem history pid with
    | none => .error ()
    | some v => .ok v
  | some false => .ok (.obj [])

/-- Python iteration `for x in v`: lists yield elements, strings their
characters, dicts their keys; other values raise (`none`). -/
def pyIter : JVal → Option (List JVal)
| .arr xs => some xs
| .str s => some (s.toList.map fun c => JVal.str (String.mk [c]))
| .obj kvs => some (kvs.map fun kv => JVal.str kv.1)
| _ => none

/-- Python `os.path.basename` for POSIX paths: everything after the last slash. -/
def basename (p : String) : String :=
String.mk (p.toList.foldl (fun acc c => if c = '/' then [] else acc ++ [c]) [])

/-- Python `os.path.join` for one POSIX component: an absolute second component
replaces the first, otherwise the parts are joined with a single slash. -/
def path_join (d b : String) : String :=
if b.toList.head? = some '/' then b
else if d = "" then b
else if d.toList.getLast? = some '/' then d ++ b
else d ++ "/" ++ b

/-- The innermost loop of `download_images` (lines 200-215) over the file
descriptors of one `"images"` entry.  `fetch` maps a filename to the status
and content of the GET against the view endpoint.  Produces the write
events `(path, content)` and the `downloaded_files` entries, both in
encounter order; a status other than 200 skips the descriptor.
`Except.error` marks the raises: `.get` on a non-dict descriptor and
`os.path.basename` on a truthy non-string filename. -/
def dl_image_list (fetch : String → Nat × String) (dir : String) :
    List JVal → Except Unit (List (String × String) × List String)
| [] => .ok ([], [])
| img :: rest =>
  match img with
  | .obj kvs =>
    match (dget "filename" kvs).getD (JVal.str "") with
    | .str fn =>
      if fn.isEmpty then dl_image_list fetch dir rest
      else
        match dl_image_list fetch dir rest with
        | .error e => .error e
        | .ok (w, fs) =>
          if (fetch fn).1 = 200 then
            .ok ((path_join dir (basename fn), (fetch fn).2) :: w,
                 path_join dir (basename fn) :: fs)
          else .ok (w, fs)
    | v => if v.truthy then .error () else dl_image_list fetch dir rest
  | _ => .error ()

/-- The middle loop of `download_images` (lines 198-199) over one node's
output entries: only entries whose key is `"images"` contribute, and their
value is iterated with Python `for`. -/
def dl_node_output (fetch : String → Nat × String) (dir : String) :
    List (String × JVal) → Except Unit (List (String × String) × List String)
| [] => .ok ([], [])
| (ty, data) :: rest =>
  if ty = "images" then
    match pyIter data with
    | none => .error ()
    | some items =>
      match dl_image_list fetch dir items with
      | .error e => .error e
      | .ok (w1, f1) =>
        match dl_node_output fetch dir rest with
        | .error e => .error e
        | .ok (w2, f2) => .ok (w1 ++ w2, f1 ++ f2)
  else dl_node_output fetch dir rest

/-- The outer loop of `download_images` (line 197) over
`outputs.items()`: each node's output collection must itself be a dict. -/
def dl_outputs (fetch : String → Nat × String) (dir : String) :
    List (String × JVal) → Except Unit (List (String × String) × List String)
| [] => .ok ([], [])
| (_, nodeOut) :: rest =>
  match nodeOut with
  | .obj entries =>
    match dl_node_output fetch dir entries with
    | .error e => .error e
    | .ok (w1, f1) =>
      match dl_outputs fetch dir rest with
      | .error e => .error e
      | .ok (w2, f2) => .ok (w1 ++ w2, f1 ++ f2)
  | _ => .error ()

/-- Embedding of `download_images` (lines 173-217) given the history record
of the job (the value `get_history` returned) and the view endpoint as a
`fetch` function.  Returns the write events and the returned list of local
paths; a falsy history or one without an `"outputs"` key yields empty lists
with a warning (lines 186-188). -/
def download_images (history : JVal) (fetch : String → Nat × String) (dir : String) :
    Except Unit (List (String × String) × List String) :=
if !history.truthy then .ok ([], [])
else
  match pyIn "outputs" history with
  | none => .error ()
  | some false => .ok ([], [])
  | some true =>
    match history with
    | .obj kvs =>
      match dget "outputs" kvs with
      | some (.obj outs) => dl_outputs fetch dir outs
      | some _ => .error ()
      | none => .ok ([], [])
    | _ => .error ()

/-- Well-shapedness of one file descriptor as claimed by the spec data
model: a dict whose `"filename"`, if present, is a string. -/
def wf_img : JVal → Bool
| .obj kvs =>
  match dget "filename" kvs with
  | none => true
  | some (.str _) => true
  | some _ => false
| _ => false

/-- Well-shapedness of one output entry: an `"images"` entry holds a list
of well-shaped descriptors; other entry keys are unconstrained. -/
def wf_entry : String × JVal → Bool
| (ty, .arr imgs) => if ty = "images" then imgs.all wf_img else true
| (ty, _) => decide (ty ≠ "images")

/-- Well-shapedness of one node's output entries. -/
def wf_node_output (entries : List (String × JVal)) : Bool :=
entries.all wf_entry

/-- Well-shapedness of one node's output collection: a dict of well-shaped
entries. -/
def wf_node_value : String × JVal → Bool
| (_, .obj entries) => wf_node_output entries
| _ => false

/-- Well-shapedness of an `outputs` mapping: every node's output collection
is a dict of well-shaped entries. -/
def wf_outputs (outs : List (String × JVal)) : Bool :=
outs.all wf_node_value

/-- The non-empty filenames of a descriptor list, in encounter order. -/
def image_files (imgs : List JVal) : List String :=
imgs.filterMap fun img =>
  match img with
  | .obj kvs =>
    match dget "filename" kvs with
    | some (.str fn) => if fn.isEmpty then none else some fn
    | _ => none
  | _ => none

/-- The non-empty filenames contributed by one node's output entries, in
encounter order. -/
def node_image_files : List (String × JVal) → List String
| [] => []
| (ty, data) :: rest =>
  (if ty = "images" then
    match data with
    | .arr imgs => image_files imgs
    | _ => []
  else []) ++ node_image_files rest

/-- The non-empty filenames of a whole `outputs` mapping, in encounter
order. -/
def outputs_image_files : List (String × JVal) → List String
| [] => []
| (_, nodeOut) :: rest =>
  (match nodeOut with
  | .obj entries => node_image_files entries
  | _ => []) ++ outputs_image_files rest

/-- The shallow `dict.copy()` performed by the main script (lines 276 and
319) on the reference representation of a workflow: the new top-level dict
holds the same node ids bound to the same node-record references. -/
def dict_copy (wf : List (String × Nat)) : List (String × Nat) := wf

/-- The function `update_node_input` (lines 41-50) embedded over an explicit store of
node records: the workflow maps node ids to references and the field
assignment mutates the store at the referenced record, which is exactly
what the in-place Python mutation `workflow[node_id]["inputs"][input_name]
= new_value` does to the shared node object. -/
def update_node_input_ref (heap : List (Nat × JVal)) (wf : List (String × Nat))
    (node_id input_name : String) (new_value : JVal) :
    Except Unit (List (Nat × JVal) × List (String × Nat)) :=
match dget node_id wf with
| none => .ok (heap, wf)
| some r =>
  match dget r heap with
  | none => .error ()
  | some (.obj fields) =>
    match dget "inputs" fields with
    | none => .error ()
    | some inputsVal =>
      match pyIn input_name inputsVal with
      | none => .error ()
      | some false => .ok (heap, wf)
      | some true =>
        match inputsVal with
        | .obj ivs =>
          .ok (dict_set heap r
            (.obj (dict_set fields "inputs" (.obj (dict_set ivs input_name new_value)))),
            wf)
        | _ => .error ()
  | some _ => .error ()

/-- The graph a workflow reference denotes: each node id paired with the
record its reference resolves to in the store. -/
def deref_workflow (heap : List (Nat × JVal)) (wf : List (String × Nat)) :
    List (String × Option JVal) :=
wf.map fun kv => (kv.1, dget kv.2 heap)

/-- Base graph of the aliasing scenario: one node `"32"` stored at
reference `0`. -/
def exampleHeap : List (Nat × JVal) :=
[(0, .obj [("inputs", .obj [("text", .str "old")])])]

/-- Top-level dict of the aliasing scenario, binding node id `"32"` to the
record at reference `0`. -/
def exampleGraph : List (String × Nat) := [("32", 0)]

/-- The store after the copy's field mutation. -/
def exampleHeapAfter : List (Nat × JVal) :=
[(0, .obj [("inputs", .obj [("text", .str "new")])])]

/-- Inputs dict of the concrete example node. -/
def exampleInputs : List (String × JVal) := [("text", .str "old"), ("seed", .num 5)]

/-- Record of the concrete example node. -/
def exampleNodeFields : List (String × JVal) := [("inputs", .obj exampleInputs)]

/-- A concrete one-node workflow graph. -/
def exampleWorkflow : List (String × JVal) := [("32", .obj exampleNodeFields)]

/-- First poll of the spec's await scenario: the job shows in
`queue_running`. -/
def examplePollBusy : PollResp :=
⟨200, .obj [("queue_running", .arr [.obj [("prompt_id", .str "job1")]])]⟩

/-- Second poll of the spec's await scenario: both lists empty. -/
def examplePollIdle : PollResp :=
⟨200, .obj [("queue_running", .arr []), ("queue_pending", .arr [])]⟩

/-- A one-node `outputs` mapping with a single image descriptor. -/
def exampleOuts : List (String × JVal) :=
[("9", .obj [("images", .arr [.obj [("filename", .str "img_0001_.png")]])])]

/-- The history record holding `exampleOuts`. -/
def exampleHistory : JVal := .obj [("outputs", .obj exampleOuts)]

/-- A view endpoint answering every file with status 200. -/
def exampleFetchOk : String → Nat × String := fun _ => (200, "bytes")

/-- A view endpoint answering every file with status 206 (a 2xx status the
code nevertheless skips). -/
def exampleFetch206 : String → Nat × String := fun _ => (206, "bytes")

theorem dget_dict_set_self {κ α : Type} [DecidableEq κ]
    (l : List (κ × α)) (k : κ) (v : α) : dget k (dict_set l k v) = some v := by
  induction l with
  | nil => simp [dict_set, dget]
  | cons kv rest ih =>
    by_cases h : kv.1 = k <;> simp [dict_set, dget, h, ih]

theorem dget_dict_set_ne {κ α : Type} [DecidableEq κ]
    (l : List (κ × α)) (k : κ) (v : α) (m : κ) (h : m ≠ k) :
    dget m (dict_set l k v) = dget m l := by
  induction l with
  | nil =>
    simp only [dict_set, dget]
    rw [if_neg (fun hh : k = m => h hh.symm)]
  | cons kv rest ih =>
    simp only [dict_set]
    by_cases hk : kv.1 = k
    · rw [if_pos hk]
      simp only [dget]
      rw [if_neg (fun hh : k = m => h hh.symm),
        if_neg (fun hh : kv.1 = m => h ((hk ▸ hh : k = m)).symm)]
    · rw [if_neg hk]
      simp only [dget]
      by_cases hm : kv.1 = m
      · rw [if_pos hm, if_pos hm]
      · rw [if_neg hm, if_neg hm, ih]

theorem any_key_eq_isSome_dget (k : String) (kvs : List (String × JVal)) :
    (kvs.any fun kv => decide (kv.1 = k)) = (dget k kvs).isSome := by
  induction kvs with
  | nil => rfl
  | cons kv rest ih =>
    by_cases h : kv.1 = k <;> simp [dget, h, ih]

theorem pyIn_obj (k : String) (kvs : List (String × JVal)) :
    pyIn k (.obj kvs) = some ((dget k kvs).isSome) :=
  congrArg some (any_key_eq_isSome_dget k kvs)

/-- C6: for a graph containing node `n` whose inputs contain field `f`,
`setField` returns the graph with exactly that field overwritten: node
`n`'s inputs now map `f` to the new value, every other input field of `n`,
every other field of `n`'s record and every other node are unchanged. -/
theorem update_node_input_sets_field
    (wf : List (String × JVal)) (n f : String) (v : JVal)
    (fields ivs : List (String × JVal))
    (hn : dget n wf = some (.obj fields))
    (hi : dget "inputs" fields = some (.obj ivs))
    (hf : (dget f ivs).isSome = true) :
    update_node_input wf n f v =
      .ok (dict_set wf n (.obj (dict_set fields "inputs" (.obj (dict_set ivs f v))))) ∧
    dget f (dict_set ivs f v) = some v ∧
    (∀ g, g ≠ f → dget g (dict_set ivs f v) = dget g ivs) ∧
    dget "inputs" (dict_set fields "inputs" (.obj (dict_set ivs f v))) =
      some (.obj (dict_set ivs f v)) ∧
    (∀ g, g ≠ "inputs" →
      dget g (dict_set fields "inputs" (.obj (dict_set ivs f v))) = dget g fields) ∧
    dget n (dict_set wf n (.obj (dict_set fields "inputs" (.obj (dict_set ivs f v))))) =
      some (.obj (dict_set fields "inputs" (.obj (dict_set ivs f v)))) ∧
    (∀ m, m ≠ n →
      dget m (dict_set wf n (.obj (dict_set fields "inputs" (.obj (dict_set ivs f v))))) =
        dget m wf) := by
  have hin : pyIn f (.obj ivs) = some true := by rw [pyIn_obj, hf]
  refine ⟨?_, dget_dict_set_self ivs f v, fun g hg => dget_dict_set_ne ivs f v g hg,
    dget_dict_set_self fields "inputs" _, fun g hg => dget_dict_set_ne fields "inputs" _ g hg,
    dget_dict_set_self wf n _, fun m hm => dget_dict_set_ne wf n _ m hm⟩
  simp only [update_node_input, hn, hi, hin]

/-- C6 witness: the theorem applied to the concrete one-node graph. -/
theorem update_node_input_sets_field_witness :
    dget "text" (dict_set exampleInputs "text" (.str "new")) = some (.str "new") ∧
    update_node_input exampleWorkflow "32" "text" (.str "new") =
      .ok (dict_set exampleWorkflow "32"
        (.obj (dict_set exampleNodeFields "inputs"
          (.obj (dict_set exampleInputs "text" (.str "new")))))) :=
  ⟨(update_node_input_sets_field exampleWorkflow "32" "text" (.str "new")
      exampleNodeFields exampleInputs (by decide) (by decide) (by decide)).2.1,
   (update_node_input_sets_field exampleWorkflow "32" "text" (.str "new")
      exampleNodeFields exampleInputs (by decide) (by decide) (by decide)).1⟩

/-- C7: when the node is absent, or present with the field not among its
inputs, `setField` warns and returns the graph unchanged. -/
theorem update_node_input_warns_on_missing_target
    (wf : List (String × JVal)) (n f : String) (v : JVal)
    (h : dget n wf = none ∨
      ∃ fields inputsVal, dget n wf = some (.obj fields) ∧
        dget "inputs" fields = some inputsVal ∧ pyIn f inputsVal = some false) :
    update_node_input wf n f v = .ok wf := by
  rcases h with h | ⟨fields, iv, hn, hi, hf⟩
  · simp only [update_node_input, h]
  · simp only [update_node_input, hn, hi, hf]

/-- C7 witness: an absent node and an absent field on the concrete graph. -/
theorem update_node_input_warns_on_missing_target_witness :
    update_node_input exampleWorkflow "99" "text" (.str "v") = .ok exampleWorkflow ∧
    update_node_input exampleWorkflow "32" "zzz" (.str "v") = .ok exampleWorkflow :=
  ⟨update_node_input_warns_on_missing_target exampleWorkflow "99" "text" (.str "v")
      (Or.inl (by decide)),
   update_node_input_warns_on_missing_target exampleWorkflow "32" "zzz" (.str "v")
      (Or.inr ⟨exampleNodeFields, .obj exampleInputs, by decide, by decide, by decide⟩)⟩

/-- C10 counterexample: a present node whose `"inputs"` value is a list not
containing the field name is warned and skipped, not raised on — so a
non-mapping `"inputs"` does not always raise. -/
theorem update_node_input_seq_inputs_warns :
    update_node_input [("32", .obj [("inputs", .arr [.str "a"])])] "32" "text" (.str "v") =
      .ok [("32", .obj [("inputs", .arr [.str "a"])])] := by decide

/-- C10 (amended): when the node is present but its record has no
`"inputs"` key, `setField` raises instead of warning and returning the
graph. -/
theorem update_node_input_missing_inputs_raises
    (wf : List (String × JVal)) (n f : String) (v : JVal)
    (fields : List (String × JVal))
    (hn : dget n wf = some (.obj fields))
    (hi : dget "inputs" fields = none) :
    update_node_input wf n f v = .error () := by
  simp only [update_node_input, hn, hi]

/-- C10 witness: a node record carrying only a class tag raises. -/
theorem update_node_input_missing_inputs_raises_witness :
    update_node_input [("32", .obj [("class_type", .str "T")])] "32" "text" (.str "v") =
      .error () :=
  update_node_input_missing_inputs_raises [("32", .obj [("class_type", .str "T")])]
    "32" "text" (.str "v") [("class_type", .str "T")] (by decide) (by decide)

/-- The extraction `extract_prompt_id` never produces a `submitError`; only the status
check does. -/
theorem extract_prompt_id_ne_submitError (r : JVal) (s : Nat) (b : JVal) :
    extract_prompt_id r ≠ .submitError s b := by
  intro h
  unfold extract_prompt_id at h
  repeat' split at h
  all_goals exact SubmitOutcome.noConfusion h

/-- C2 counterexample: status 201 is 2xx, yet the submit raises a
`SubmitError` instead of proceeding to identifier extraction. -/
theorem submit_raises_on_2xx_201 :
    (200 ≤ 201 ∧ 201 < 300) ∧
    run_workflow 201 (.obj [("prompt_id", .str "abc")]) =
      .submitError 201 (.obj [("prompt_id", .str "abc")]) := by decide

/-- C2 (amended): the submit fails with a `SubmitError` carrying the status
code and body exactly when the status differs from 200; on status 200 it
proceeds to identifier extraction. -/
theorem run_workflow_error_iff_status_ne_200 (status : Nat) (body : JVal) :
    ((∃ s b, run_workflow status body = .submitError s b) ↔ status ≠ 200) ∧
    (status ≠ 200 → run_workflow status body = .submitError status body) ∧
    (status = 200 → run_workflow status body = extract_prompt_id body) := by
  refine ⟨⟨?_, ?_⟩, ?_, ?_⟩
  · rintro ⟨s, b, h⟩ h200
    subst h200
    simp only [run_workflow, ne_eq, not_true_eq_false, if_false] at h
    exact extract_prompt_id_ne_submitError _ _ _ h
  · intro h
    exact ⟨status, body, by simp [run_workflow, h]⟩
  · intro h
    simp [run_workflow, h]
  · intro h
    subst h
    simp [run_workflow]

/-- C2 witness: the amended contract at statuses 500 and 200. -/
theorem run_workflow_error_iff_status_ne_200_witness :
    run_workflow 500 (.obj []) = .submitError 500 (.obj []) ∧
    run_workflow 200 (.obj []) = extract_prompt_id (.obj []) :=
  ⟨(run_workflow_error_iff_status_ne_200 500 (.obj [])).2.1 (by decide),
   (run_workflow_error_iff_status_ne_200 200 (.obj [])).2.2 rfl⟩

/-- C3 counterexample: with `"prompt_id"` present but empty and `"id"`
holding `"xyz"`, the code raises `MissingIdentifier` instead of returning
the first non-empty candidate `"xyz"`: the strategies are tried by key
presence, not by non-emptiness. -/
theorem extract_prompt_id_present_empty_key_fails :
    extract_prompt_id (.obj [("prompt_id", .str ""), ("id", .str "xyz")]) =
      .missingId (.obj [("prompt_id", .str ""), ("id", .str "xyz")]) ∧
    extract_prompt_id (.obj [("prompt_id", .str ""), ("id", .str "xyz")]) ≠
      .ok (.str "xyz") := by decide

/-- C3 (amended): the strategies are tried by key presence with a single
final emptiness check, over every response shape.  On a dict the identifier
is the value of `"prompt_id"` if that key is present, else of `"id"` if
present, failing with `MissingIdentifier` when the selected value is empty
(no fall-through from a present-but-empty key) or neither key is present.
On a sequence, Python `in` is element membership: a sequence containing the
literal string `"prompt_id"` or `"id"` passes the membership test and then
raises a `TypeError` on the string subscription; otherwise the first
element of a non-empty sequence is coerced to string and returned if
non-empty, with `MissingIdentifier` for an empty coercion or an empty
sequence.  On a string response the membership tests are substring tests
(a match raises `TypeError` on subscription, otherwise
`MissingIdentifier`); any other response type raises `TypeError` at the
membership test itself.  The four concrete example shapes behave as the
spec states. -/
theorem extract_prompt_id_characterization :
    (∀ kvs : List (String × JVal),
      extract_prompt_id (.obj kvs) =
        match dget "prompt_id" kvs with
        | some v => if v.truthy then .ok v else .missingId (.obj kvs)
        | none =>
          match dget "id" kvs with
          | some v => if v.truthy then .ok v else .missingId (.obj kvs)
          | none => .missingId (.obj kvs)) ∧
    (∀ xs : List JVal,
      extract_prompt_id (.arr xs) =
        if xs.any fun x => decide (x = JVal.str "prompt_id") then .typeErr
        else if xs.any fun x => decide (x = JVal.str "id") then .typeErr
        else
          match xs with
          | [] => .missingId (.arr xs)
          | x :: _ =>
            if (JVal.str (pyStr x)).truthy then .ok (.str (pyStr x))
            else .missingId (.arr xs)) ∧
    (∀ s : String,
      extract_prompt_id (.str s) =
        if occursIn "prompt_id".toList s.toList then .typeErr
        else if occursIn "id".toList s.toList then .typeErr
        else .missingId (.str s)) ∧
    extract_prompt_id .null = .typeErr ∧
    (∀ b : Bool, extract_prompt_id (.bool b) = .typeErr) ∧
    (∀ n : Int, extract_prompt_id (.num n) = .typeErr) ∧
    extract_prompt_id (.obj [("prompt_id", .str "abc")]) = .ok (.str "abc") ∧
    extract_prompt_id (.obj [("id", .str "xyz")]) = .ok (.str "xyz") ∧
    extract_prompt_id (.arr [.str "q1"]) = .ok (.str "q1") ∧
    extract_prompt_id (.obj []) = .missingId (.obj []) := by
  refine ⟨?_, ?_, ?_, rfl, fun b => rfl, fun n => rfl,
    by decide, by decide, by decide, by decide⟩
  · intro kvs
    cases hp : dget "prompt_id" kvs with
    | some v =>
      simp only [extract_prompt_id, pyIn_obj, hp, Option.isSome_some, getItem]
    | none =>
      cases hid : dget "id" kvs with
      | some v =>
        simp only [extract_prompt_id, pyIn_obj, hp, hid, Option.isSome_some,
          Option.isSome_none, getItem]
      | none =>
        simp only [extract_prompt_id, pyIn_obj, hp, hid, Option.isSome_none, getItem]
  · intro xs
    cases h1 : xs.any fun x => decide (x = JVal.str "prompt_id") with
    | true => simp [extract_prompt_id, pyIn, h1, getItem]
    | false =>
      cases h2 : xs.any fun x => decide (x = JVal.str "id") with
      | true => simp [extract_prompt_id, pyIn, h1, h2, getItem]
      | false =>
        cases xs with
        | nil => rfl
        | cons x rest =>
          simp [extract_prompt_id, pyIn, h1, h2]
  · intro s
    cases h1 : occursIn "prompt_id".toList s.toList with
    | true =>
      simp at h1
      simp [extract_prompt_id, pyIn, getItem, h1]
    | false =>
      cases h2 : occursIn "id".toList s.toList with
      | true =>
        simp at h1 h2
        simp [extract_prompt_id, pyIn, getItem, h1, h2]
      | false =>
        simp at h1 h2
        simp [extract_prompt_id, pyIn, getItem, h1, h2]

/-- C9: when the history GET succeeds but the job id is absent from the
fetched collection, `get_history` returns the empty record rather than
raising. -/
theorem get_history_absent_returns_empty
    (status : Nat) (history : JVal) (pid : String)
    (hs : status = 200) (habs : pyIn pid history = some false) :
    get_history status history pid = .ok (.obj []) := by
  subst hs
  simp [get_history, habs]

/-- C9 witness: a history collection not containing job `"p42"`. -/
theorem get_history_absent_returns_empty_witness :
    get_history 200 (.obj [("other", .str "x")]) "p42" = .ok (.obj []) :=
  get_history_absent_returns_empty 200 (.obj [("other", .str "x")]) "p42" rfl (by decide)

theorem wait_cons_skip (pid : String) (r : PollResp) (rest : List PollResp)
    (hs : r.status ≠ 200) (res : Option Nat)
    (hres : wait_for_completion pid rest = .ok res) :
    wait_for_completion pid (r :: rest) = .ok (res.map (· + 1)) := by
  simp only [wait_for_completion]
  rw [if_pos hs, hres]

theorem wait_cons_skip_error (pid : String) (r : PollResp) (rest : List PollResp)
    (hs : r.status ≠ 200) (e : Unit)
    (he : wait_for_completion pid (r :: rest) = .error e) :
    wait_for_completion pid rest = .error e := by
  cases hw : wait_for_completion pid rest with
  | error e2 =>
    have heq : wait_for_completion pid (r :: rest) = .error e2 := by
      simp only [wait_for_completion]
      rw [if_pos hs, hw]
    exact heq.symm.trans he
  | ok res =>
    have heq : wait_for_completion pid (r :: rest) = .ok (res.map (· + 1)) := by
      simp only [wait_for_completion]
      rw [if_pos hs, hw]
    exact absurd (heq.symm.trans he) (fun hh => Except.noConfusion hh)

theorem wait_cons_done (pid : String) (r : PollResp) (rest : List PollResp)
    (hs : r.status = 200) (hd : queue_done pid r.body = .ok true) :
    wait_for_completion pid (r :: rest) = .ok (some 1) := by
  simp only [wait_for_completion]
  rw [if_neg (not_not_intro hs), hd]

theorem wait_cons_continue (pid : String) (r : PollResp) (rest : List PollResp)
    (hs : r.status = 200) (hd : queue_done pid r.body = .ok false) (res : Option Nat)
    (hres : wait_for_completion pid rest = .ok res) :
    wait_for_completion pid (r :: rest) = .ok (res.map (· + 1)) := by
  simp only [wait_for_completion]
  rw [if_neg (not_not_intro hs), hd, hres]

theorem wait_for_completion_isOk (pid : String) (script : List PollResp)
    (hok : ∀ r ∈ script, r.status = 200 → ∃ b, queue_done pid r.body = .ok b) :
    ∃ res, wait_for_completion pid script = .ok res := by
  induction script with
  | nil => exact ⟨none, rfl⟩
  | cons r rest ih =>
    obtain ⟨res, hres⟩ := ih fun x hx => hok x (List.mem_cons_of_mem _ hx)
    by_cases hs : r.status = 200
    · obtain ⟨b, hb⟩ := hok r (List.mem_cons_self _ _) hs
      cases b with
      | false => exact ⟨res.map (· + 1), wait_cons_continue pid r rest hs hb res hres⟩
      | true => exact ⟨some 1, wait_cons_done pid r rest hs hb⟩
    · exact ⟨res.map (· + 1), wait_cons_skip pid r rest hs res hres⟩

theorem queue_done_run_error (pid : String) (data : JVal) (e : Unit)
    (h : parse_queue_ids data "queue_running" = .error e) :
    queue_done pid data = .error e := by
  unfold queue_done
  rw [h]

theorem queue_done_pend_error (pid : String) (data : JVal) (running : List JVal) (e : Unit)
    (h1 : parse_queue_ids data "queue_running" = .ok running)
    (h2 : parse_queue_ids data "queue_pending" = .error e) :
    queue_done pid data = .error e := by
  unfold queue_done
  rw [h1, h2]

theorem queue_done_eq (pid : String) (data : JVal) (running pending : List JVal)
    (h1 : parse_queue_ids data "queue_running" = .ok running)
    (h2 : parse_queue_ids data "queue_pending" = .ok pending) :
    queue_done pid data =
      .ok ((!(running.any fun x => decide (x = JVal.str pid)) &&
            !(pending.any fun x => decide (x = JVal.str pid))) &&
           running.isEmpty) := by
  unfold queue_done
  rw [h1, h2]

theorem queue_done_eq_true_iff (pid : String) (data : JVal) :
    queue_done pid data = .ok true ↔
      ∃ running pending,
        parse_queue_ids data "queue_running" = .ok running ∧
        parse_queue_ids data "queue_pending" = .ok pending ∧
        JVal.str pid ∉ running ∧ JVal.str pid ∉ pending ∧ running = [] := by
  constructor
  · intro h
    cases h1 : parse_queue_ids data "queue_running" with
    | error e =>
      rw [queue_done_run_error pid data e h1] at h
      exact absurd h (fun hh => Except.noConfusion hh)
    | ok running =>
      cases h2 : parse_queue_ids data "queue_pending" with
      | error e =>
        rw [queue_done_pend_error pid data running e h1 h2] at h
        exact absurd h (fun hh => Except.noConfusion hh)
      | ok pending =>
        rw [queue_done_eq pid data running pending h1 h2] at h
        have hb := Except.ok.inj h
        rw [Bool.and_eq_true, Bool.and_eq_true] at hb
        obtain ⟨⟨hrun, hpend⟩, hempty⟩ := hb
        refine ⟨running, pending, rfl, rfl, ?_, ?_, List.isEmpty_iff.mp hempty⟩
        · intro hmem
          rw [Bool.not_eq_true', List.any_eq_false] at hrun
          have := hrun _ hmem
          simp at this
        · intro hmem
          rw [Bool.not_eq_true', List.any_eq_false] at hpend
          have := hpend _ hmem
          simp at this
  · rintro ⟨run, pend, hr, hp, hnr, hnp, hre⟩
    subst hre
    rw [queue_done_eq pid data [] pend hr hp]
    congr 1
    simp only [List.any_nil, Bool.not_false, Bool.true_and, List.isEmpty_nil, Bool.and_true]
    rw [Bool.not_eq_true', List.any_eq_false]
    intro x hx
    exact fun hdd => hnp ((of_decide_eq_true hdd) ▸ hx)

/-- C8: during await, a response with a non-2xx status on some poll is
transient: the loop consumes that poll and retries, every outcome of the
remaining polls carries over (with one more poll counted on success), and a
terminal failure of the await never originates from the non-2xx poll
itself. -/
theorem wait_for_completion_non_2xx_transient
    (pid : String) (r : PollResp) (rest : List PollResp)
    (h : r.status < 200 ∨ 300 ≤ r.status) :
    (∀ res, wait_for_completion pid rest = .ok res →
      wait_for_completion pid (r :: rest) = .ok (res.map (· + 1))) ∧
    (∀ e, wait_for_completion pid (r :: rest) = .error e →
      wait_for_completion pid rest = .error e) := by
  have hs : r.status ≠ 200 := by omega
  exact ⟨fun res hres => wait_cons_skip pid r rest hs res hres,
    fun e he => wait_cons_skip_error pid r rest hs e he⟩

/-- C8 witness: a 500 poll followed by an idle queue completes on the next
poll. -/
theorem wait_for_completion_non_2xx_transient_witness :
    wait_for_completion "job1" [⟨500, .null⟩, examplePollIdle] = .ok (some 2) :=
  (wait_for_completion_non_2xx_transient "job1" ⟨500, .null⟩ [examplePollIdle]
    (by decide)).1 (some 1) (by decide)

/-- C4: await succeeds exactly when some poll answers with status 200 and
shows the job id absent from both parsed lists with the parsed running
list empty (provided no poll body makes the parsing itself raise), and the
spec's two-poll scenario — job running on the first poll, both lists empty
on the second — returns success after exactly 2 polls. -/
theorem wait_for_completion_success_characterization
    (pid : String) (script : List PollResp)
    (hok : ∀ r ∈ script, r.status = 200 → ∃ b, queue_done pid r.body = .ok b) :
    ((∃ k, wait_for_completion pid script = .ok (some k)) ↔
      ∃ r ∈ script, r.status = 200 ∧
        ∃ running pending,
          parse_queue_ids r.body "queue_running" = .ok running ∧
          parse_queue_ids r.body "queue_pending" = .ok pending ∧
          JVal.str pid ∉ running ∧ JVal.str pid ∉ pending ∧ running = []) ∧
    wait_for_completion "job1" [examplePollBusy, examplePollIdle] = .ok (some 2) := by
  refine ⟨?_, by decide⟩
  have key : (∃ k, wait_for_completion pid script = .ok (some k)) ↔
      ∃ r ∈ script, r.status = 200 ∧ queue_done pid r.body = .ok true := by
    induction script with
    | nil =>
      constructor
      · rintro ⟨k, hk⟩
        exact absurd (Except.ok.inj hk) (fun hh => Option.noConfusion hh)
      · rintro ⟨r, hr, _⟩
        exact absurd hr (List.not_mem_nil _)
    | cons r rest ih =>
      have hrest : ∀ x ∈ rest, x.status = 200 → ∃ b, queue_done pid x.body = .ok b :=
        fun x hx => hok x (List.mem_cons_of_mem _ hx)
      obtain ⟨res, hres⟩ := wait_for_completion_isOk pid rest hrest
      have hmain := ih hrest
      rw [hres] at hmain
      by_cases hs : r.status = 200
      · obtain ⟨b, hb⟩ := hok r (List.mem_cons_self _ _) hs
        cases b with
        | true =>
          constructor
          · intro _
            exact ⟨r, List.mem_cons_self _ _, hs, hb⟩
          · intro _
            exact ⟨1, wait_cons_done pid r rest hs hb⟩
        | false =>
          rw [wait_cons_continue pid r rest hs hb res hres]
          constructor
          · rintro ⟨k, hk⟩
            obtain ⟨m, hm, -⟩ := Option.map_eq_some'.mp (Except.ok.inj hk)
            obtain ⟨x, hx, hx2⟩ := hmain.mp ⟨m, by rw [hm]⟩
            exact ⟨x, List.mem_cons_of_mem _ hx, hx2⟩
          · rintro ⟨x, hx, hx2⟩
            rcases List.mem_cons.mp hx with rfl | hx
            · rw [hb] at hx2
              exact absurd (Except.ok.inj hx2.2) (by simp)
            · obtain ⟨m, hm⟩ := hmain.mpr ⟨x, hx, hx2⟩
              have hrm : res = some m := Except.ok.inj hm
              exact ⟨m + 1, by rw [hrm]; rfl⟩
      · rw [wait_cons_skip pid r rest hs res hres]
        constructor
        · rintro ⟨k, hk⟩
          obtain ⟨m, hm, -⟩ := Option.map_eq_some'.mp (Except.ok.inj hk)
          obtain ⟨x, hx, hx2⟩ := hmain.mp ⟨m, by rw [hm]⟩
          exact ⟨x, List.mem_cons_of_mem _ hx, hx2⟩
        · rintro ⟨x, hx, hx2⟩
          rcases List.mem_cons.mp hx with rfl | hx
          · exact absurd hx2.1 hs
          · obtain ⟨m, hm⟩ := hmain.mpr ⟨x, hx, hx2⟩
            have hrm : res = some m := Except.ok.inj hm
            exact ⟨m + 1, by rw [hrm]; rfl⟩
  rw [key]
  constructor
  · rintro ⟨r, hr, hs, hq⟩
    exact ⟨r, hr, hs, (queue_done_eq_true_iff pid r.body).mp hq⟩
  · rintro ⟨r, hr, hs, hq⟩
    exact ⟨r, hr, hs, (queue_done_eq_true_iff pid r.body).mpr hq⟩

theorem wf_img_shape (img : JVal) (h : wf_img img = true) :
    ∃ kvs, img = JVal.obj kvs ∧
      (dget "filename" kvs = none ∨ ∃ fn, dget "filename" kvs = some (.str fn)) := by
  cases img with
  | obj kvs =>
    refine ⟨kvs, rfl, ?_⟩
    cases hfn : dget "filename" kvs with
    | none => exact Or.inl rfl
    | some v =>
      cases v with
      | str fn => exact Or.inr ⟨fn, rfl⟩
      | null => simp [wf_img, hfn] at h
      | bool b => simp [wf_img, hfn] at h
      | num n => simp [wf_img, hfn] at h
      | arr xs => simp [wf_img, hfn] at h
      | obj o => simp [wf_img, hfn] at h
  | null => simp [wf_img] at h
  | bool b => simp [wf_img] at h
  | num n => simp [wf_img] at h
  | str s => simp [wf_img] at h
  | arr xs => simp [wf_img] at h

theorem dl_image_list_ok (fetch : String → Nat × String) (dir : String)
    (imgs : List JVal) (h : imgs.all wf_img = true) :
    dl_image_list fetch dir imgs =
      .ok ((image_files imgs).filterMap fun fn =>
             if (fetch fn).1 = 200 then
               some (path_join dir (basename fn), (fetch fn).2)
             else none,
           (image_files imgs).filterMap fun fn =>
             if (fetch fn).1 = 200 then some (path_join dir (basename fn)) else none) := by
  induction imgs with
  | nil => rfl
  | cons img rest ih =>
    rw [List.all_cons, Bool.and_eq_true] at h
    obtain ⟨h1, h2⟩ := h
    have ihr := ih h2
    obtain ⟨kvs, rfl, hfn⟩ := wf_img_shape img h1
    rcases hfn with hfn | ⟨fn, hfn⟩
    · simp only [dl_image_list, hfn, Option.getD_none, image_files, List.filterMap_cons, ihr]
      all_goals rfl
    · by_cases hfe : fn.isEmpty
      · simp only [dl_image_list, hfn, Option.getD_some, hfe, if_true, image_files,
          List.filterMap_cons, ihr]
      · by_cases hfc : (fetch fn).1 = 200
        · simp only [dl_image_list, hfn, Option.getD_some, ihr, image_files,
            List.filterMap_cons]
          simp [hfe, hfc]
        · simp only [dl_image_list, hfn, Option.getD_some, ihr, image_files,
            List.filterMap_cons]
          simp [hfe, hfc]

theorem dl_node_output_ok (fetch : String → Nat × String) (dir : String)
    (entries : List (String × JVal)) (h : wf_node_output entries = true) :
    dl_node_output fetch dir entries =
      .ok ((node_image_files entries).filterMap fun fn =>
             if (fetch fn).1 = 200 then
               some (path_join dir (basename fn), (fetch fn).2)
             else none,
           (node_image_files entries).filterMap fun fn =>
             if (fetch fn).1 = 200 then some (path_join dir (basename fn)) else none) := by
  induction entries with
  | nil => rfl
  | cons e rest ih =>
    obtain ⟨ty, data⟩ := e
    rw [wf_node_output, List.all_cons, Bool.and_eq_true] at h
    obtain ⟨h1, h2⟩ := h
    have ihr := ih (by rw [wf_node_output]; exact h2)
    by_cases hty : ty = "images"
    · subst hty
      cases data with
      | arr imgs =>
        have himgs : imgs.all wf_img = true := h1
        have hdl := dl_image_list_ok fetch dir imgs himgs
        simp only [dl_node_output, reduceIte, pyIter, hdl, ihr, node_image_files,
          List.filterMap_append]
      | null => exact absurd h1 Bool.false_ne_true
      | bool b => exact absurd h1 Bool.false_ne_true
      | num n => exact absurd h1 Bool.false_ne_true
      | str s2 => exact absurd h1 Bool.false_ne_true
      | obj o => exact absurd h1 Bool.false_ne_true
    · simp only [dl_node_output, hty, if_false, ihr, node_image_files]
      simp [hty]

theorem dl_outputs_ok (fetch : String → Nat × String) (dir : String)
    (outs : List (String × JVal)) (h : wf_outputs outs = true) :
    dl_outputs fetch dir outs =
      .ok ((outputs_image_files outs).filterMap fun fn =>
             if (fetch fn).1 = 200 then
               some (path_join dir (basename fn), (fetch fn).2)
             else none,
           (outputs_image_files outs).filterMap fun fn =>
             if (fetch fn).1 = 200 then some (path_join dir (basename fn)) else none) := by
  induction outs with
  | nil => rfl
  | cons e rest ih =>
    obtain ⟨nid, nodeOut⟩ := e
    rw [wf_outputs, List.all_cons, Bool.and_eq_true] at h
    obtain ⟨h1, h2⟩ := h
    have ihr := ih (by rw [wf_outputs]; exact h2)
    cases nodeOut with
    | obj entries =>
      have hwn : wf_node_output entries = true := h1
      have hent := dl_node_output_ok fetch dir entries hwn
      simp only [dl_outputs, hent, ihr, outputs_image_files, List.filterMap_append]
    | null => exact absurd h1 Bool.false_ne_true
    | bool b => exact absurd h1 Bool.false_ne_true
    | num n => exact absurd h1 Bool.false_ne_true
    | str s2 => exact absurd h1 Bool.false_ne_true
    | arr xs => exact absurd h1 Bool.false_ne_true

/-- C5 counterexample: a history with one image descriptor against a view
endpoint answering 206 — a 2xx status — downloads nothing: the code skips
every status other than 200, not only non-2xx ones. -/
theorem download_images_skips_2xx_206 :
    (200 ≤ 206 ∧ 206 < 300) ∧
    download_images exampleHistory exampleFetch206 "out" = .ok ([], []) ∧
    outputs_image_files exampleOuts = ["img_0001_.png"] :=
  ⟨by decide, by decide, by decide⟩

/-- C5 (amended): for a history record whose well-shaped `outputs` mapping
is present, the downloads write `dir/basename(filename)` for exactly those
non-empty filenames of `"images"` entries whose GET returns status 200
(skipping every other status without aborting), and the returned list is
the successfully written paths in encounter order; a record without
`outputs` yields empty lists with a warning, not an error. -/
theorem download_images_characterization :
    (∀ (kvs outs : List (String × JVal)) (fetch : String → Nat × String) (dir : String),
      dget "outputs" kvs = some (.obj outs) → wf_outputs outs = true →
      download_images (.obj kvs) fetch dir =
        .ok ((outputs_image_files outs).filterMap fun fn =>
               if (fetch fn).1 = 200 then
                 some (path_join dir (basename fn), (fetch fn).2)
               else none,
             (outputs_image_files outs).filterMap fun fn =>
               if (fetch fn).1 = 200 then some (path_join dir (basename fn)) else none)) ∧
    (∀ (kvs : List (String × JVal)) (fetch : String → Nat × String) (dir : String),
      dget "outputs" kvs = none → download_images (.obj kvs) fetch dir = .ok ([], [])) := by
  constructor
  · intro kvs outs fetch dir hout hwf
    have hk : kvs ≠ [] := by
      intro hk
      rw [hk] at hout
      exact Option.noConfusion hout
    have ht : (JVal.obj kvs).truthy = true := by
      simp [JVal.truthy, List.isEmpty_iff, hk]
    simp only [download_images, ht, Bool.not_true, Bool.false_eq_true, if_false,
      pyIn_obj, hout, Option.isSome_some, dl_outputs_ok fetch dir outs hwf]
  · intro kvs fetch dir hout
    by_cases hk : kvs = []
    · subst hk; rfl
    · have ht : (JVal.obj kvs).truthy = true := by
        simp [JVal.truthy, List.isEmpty_iff, hk]
      simp only [download_images, ht, Bool.not_true, Bool.false_eq_true, if_false,
        pyIn_obj, hout, Option.isSome_none]

/-- C5 witness: one image descriptor against a 200 endpoint writes and
returns exactly that file, plus the missing-outputs case. -/
theorem download_images_characterization_witness :
    download_images exampleHistory exampleFetchOk "out" =
      .ok ([("out/img_0001_.png", "bytes")], ["out/img_0001_.png"]) ∧
    download_images (.obj [("status", .str "done")]) exampleFetchOk "out" = .ok ([], []) :=
  ⟨(download_images_characterization.1 [("outputs", .obj exampleOuts)] exampleOuts
      exampleFetchOk "out" (by decide) (by decide)).trans (by decide),
   download_images_characterization.2 [("status", .str "done")] exampleFetchOk "out" (by decide)⟩

/-- C1: the per-job `dict.copy()` is shallow, so the field mutation
performed on the copy is visible through the original base graph: after
`setField(copy, "32", "text", "new")` the base graph's node `"32"` reads
back with `"text" = "new"`, not its original value. -/
theorem update_after_shallow_copy_mutates_base :
    update_node_input_ref exampleHeap (dict_copy exampleGraph) "32" "text" (.str "new") =
      .ok (exampleHeapAfter, dict_copy exampleGraph) ∧
    deref_workflow exampleHeapAfter exampleGraph ≠ deref_workflow exampleHeap exampleGraph ∧
    deref_workflow exampleHeapAfter exampleGraph =
      [("32", some (.obj [("inputs", .obj [("text", .str "new")])]))] :=
  ⟨by decide, by decide, by decide⟩

/-- C4 witness: the two-poll scenario, with the parse side condition
discharged for both polls. -/
theorem wait_for_completion_success_characterization_witness :
    wait_for_completion "job1" [examplePollBusy, examplePollIdle] = .ok (some 2) :=
  (wait_for_completion_success_characterization "job1" [examplePollBusy, examplePollIdle]
    (by
      intro r hr h200
      rcases List.mem_cons.mp hr with rfl | hr
      · exact ⟨false, by decide⟩
      rcases List.mem_cons.mp hr with rfl | hr
      · exact ⟨true, by decide⟩
      · exact absurd hr (List.not_mem_nil _))).2

end ComfyUIAPI
